import Mathlib

/-!
Shallow embedding of the quota-aware multi-credential client pool and the
retry orchestrator of the tinypng-enhanced repository.

Sources embedded:
* `src/key-manager.mjs` (`KeyManager`): credential statistics, selection,
  usage tracking, disabling, reset.
* `src/utils/error.mjs`: pure error classification helpers.
* `src/workflows/compression.mjs` (`handleServiceError`, `handleNetworkError`,
  `finalizeResult`) and `src/tinypng.mjs` (`TinyPNGCompressor.compress`):
  the retry loop over attempts.
* `src/utils/event.mjs` (`createSuccessEvent`) and
  `src/utils/compression.mjs` (`calculateSavedBytes`).

Conventions: JS numbers used as counters are modelled as `Nat` (they are
non-negative integers in the code), signed arithmetic (`limit - count`,
`savedBytes`) as `Int`.  A JS value that may be `null`/`undefined` is an
`Option`.  Array indices arriving from callers are modelled as `Int` so that
negative (invalid) indices are representable; `array[i]` returning
`undefined` out of range is `Option`-valued lookup.  Methods that `throw`
are `Except`-valued.  Wall-clock timestamps (`Date.now()`) are passed in as
an explicit `now : Nat` argument.  Floating-point display strings
(`percentUsed`, `compressionRatio`, both produced with `toFixed(2)`) are not
modelled; no claim depends on them.
-/

namespace TinyPNG

/-- One entry of `KeyManager.keyStats` (key-manager.mjs, constructor):
a credential with its tracked state.  `compressionCount = none` models the
JS `null` ("never used, will get from API"). -/
structure KeyStat where
  key : String
  index : Nat
  compressionCount : Option Nat
  monthlyLimit : Nat
  lastUpdated : Option Nat
  lastError : Option String
  disabled : Bool
deriving Repr, DecidableEq

/-- The `KeyManager` state: the `keyStats` array and the current-selection
pointer `currentKeyIndex`. -/
structure KeyManager where
  keyStats : List KeyStat
  currentKeyIndex : Nat
deriving Repr, DecidableEq

/-- Initial statistics entry for one API key (key-manager.mjs constructor,
the `options.apiKeys.map` initializer). -/
def mkStat (key : String) (index : Nat) (limit : Nat) : KeyStat :=
  { key := key
    index := index
    compressionCount := none
    monthlyLimit := limit
    lastUpdated := none
    lastError := none
    disabled := false }

/-- Builds the `keyStats` array: each key paired with its position. -/
def initStats : List String → Nat → Nat → List KeyStat
  | [], _, _ => []
  | k :: ks, i, limit => mkStat k i limit :: initStats ks (i + 1) limit

/-- `new KeyManager({apiKeys, monthlyLimit})` after its argument checks
succeed (a non-empty array of keys; the claims never exercise the failing
constructor paths). -/
def initKeyManager (apiKeys : List String) (monthlyLimit : Nat) : KeyManager :=
  { keyStats := initStats apiKeys 0 monthlyLimit
    currentKeyIndex := 0 }

/-- JS `this.keyStats[keyIndex]`: `undefined` (here `none`) for a negative,
fractional-free out-of-range index. -/
def getStat (km : KeyManager) (i : Int) : Option KeyStat :=
  if 0 ≤ i then km.keyStats[i.toNat]? else none

/-- Replace the statistics entry at a (valid) position. -/
def setStat (km : KeyManager) (n : Nat) (s : KeyStat) : KeyManager :=
  { km with keyStats := km.keyStats.set n s }

/-- The two failure modes of `selectBestKey`: every key disabled
(`所有 API Keys 都已被禁用`) versus every remaining key at its monthly limit
(`所有 API Keys 都已达到月度限制`). -/
inductive SelectError where
  | poolExhausted
  | quotaExhausted
deriving Repr, DecidableEq

/-- The `Invalid key index` error thrown by `updateStats`, `markKeyError`
and `getKeyString`. -/
inductive KMError where
  | invalidIndex (i : Int)
deriving Repr, DecidableEq

/-- The viability filter inside `selectBestKey`: unknown count is assumed
available, a known count must be under the limit. -/
def viable (s : KeyStat) : Bool :=
  match s.compressionCount with
  | none => true
  | some c => c < s.monthlyLimit

/-- Remaining quota of a key as used by `selectBestKey`'s reduce:
`none` stands for the JS `Infinity` given to keys with unknown count,
`some` for `monthlyLimit - compressionCount`. -/
def remainingQuota (s : KeyStat) : Option Int :=
  s.compressionCount.map fun c => (s.monthlyLimit : Int) - c

/-- The strict comparison `currentRemaining > bestRemaining` of the reduce,
with `none` playing the role of `Infinity` (`Infinity > Infinity` is
`false` in JS). -/
def quotaGt (current best : Option Int) : Bool :=
  match current, best with
  | none, none => false
  | none, some _ => true
  | some _, none => false
  | some x, some y => y < x

/-- The `viableKeys.reduce` of `selectBestKey`: fold the pick-the-larger
step over the tail, starting from the head. -/
def pickBest (a : KeyStat) (l : List KeyStat) : KeyStat :=
  l.foldl
    (fun best current =>
      if quotaGt (remainingQuota current) (remainingQuota best) then current else best)
    a

/-- `KeyManager.selectBestKey`: filter out disabled keys (else the
pool-exhausted error), filter out keys known to be at their limit (else the
quota-exhausted error), pick the key with the most remaining quota, set
`currentKeyIndex` to its index and return it.  The source binds the
intermediate arrays (`availableKeys`, `viableKeys`, `bestKey`) to locals;
they are inlined here, which is observationally identical as everything is
pure. -/
def selectBestKey (km : KeyManager) : Except SelectError (KeyStat × KeyManager) :=
  if (km.keyStats.filter fun s => !s.disabled).isEmpty then
    .error .poolExhausted
  else
    match (km.keyStats.filter fun s => !s.disabled).filter viable with
    | [] => .error .quotaExhausted
    | a :: rest =>
      .ok (pickBest a rest, { km with currentKeyIndex := (pickBest a rest).index })

/-- `KeyManager.updateStats(keyIndex, compressionCount)`: invalid index
throws; a non-numeric (`null`) count is a no-op; a numeric count is
recorded together with `lastUpdated = Date.now()` and the key is disabled
when the count has reached the monthly limit. -/
def updateStats (km : KeyManager) (i : Int) (compressionCount : Option Nat) (now : Nat) :
    Except KMError KeyManager :=
  match getStat km i with
  | none => .error (.invalidIndex i)
  | some stat =>
    match compressionCount with
    | none => .ok km
    | some c =>
      .ok (setStat km i.toNat
        { stat with
            compressionCount := some c
            lastUpdated := some now
            disabled := stat.disabled || decide (stat.monthlyLimit ≤ c) })

/-- `KeyManager.markKeyError(keyIndex, error)`: invalid index throws,
otherwise the error message is recorded and the key disabled. -/
def markKeyError (km : KeyManager) (i : Int) (errorMessage : String) :
    Except KMError KeyManager :=
  match getStat km i with
  | none => .error (.invalidIndex i)
  | some stat =>
    .ok (setStat km i.toNat { stat with lastError := some errorMessage, disabled := true })

/-- One row of the `KeyManager.getStats()` report (the `percentUsed`
floating-point display string is not modelled). -/
structure KeyStatView where
  keyIndex : Nat
  compressionCount : Option Nat
  monthlyLimit : Nat
  remaining : Option Int
  lastUpdated : Option Nat
  disabled : Bool
  lastError : Option String
deriving Repr, DecidableEq

/-- `KeyManager.getStats()`: the secret-free per-key view. -/
def getStats (km : KeyManager) : List KeyStatView :=
  km.keyStats.map fun stat =>
    { keyIndex := stat.index
      compressionCount := stat.compressionCount
      monthlyLimit := stat.monthlyLimit
      remaining := stat.compressionCount.map fun c => (stat.monthlyLimit : Int) - c
      lastUpdated := stat.lastUpdated
      disabled := stat.disabled
      lastError := stat.lastError }

/-- `KeyManager.reset()`: clear count, disabled flag, error and timestamp on
every key and move the pointer back to 0. -/
def reset (km : KeyManager) : KeyManager :=
  { keyStats := km.keyStats.map fun stat =>
      { stat with
          compressionCount := none
          disabled := false
          lastError := none
          lastUpdated := none }
    currentKeyIndex := 0 }

/-- `KeyManager.isKeyAvailable(keyIndex)`: `false` (not a throw) for a
missing entry or a disabled key, unknown count assumed available, known
count must be under the limit. -/
def isKeyAvailable (km : KeyManager) (i : Int) : Bool :=
  match getStat km i with
  | none => false
  | some stat =>
    if stat.disabled then false
    else
      match stat.compressionCount with
      | none => true
      | some c => c < stat.monthlyLimit

/-- `KeyManager.getKeyString(keyIndex)`: invalid index throws, otherwise
the raw API key string is returned. -/
def getKeyString (km : KeyManager) (i : Int) : Except KMError String :=
  match getStat km i with
  | none => .error (.invalidIndex i)
  | some stat => .ok stat.key

/-- `KeyManager.getTotalKeys()`. -/
def getTotalKeys (km : KeyManager) : Nat :=
  km.keyStats.length

/-- `KeyManager.getCurrentKey()`. -/
def getCurrentKey (km : KeyManager) : Option KeyStat :=
  km.keyStats[km.currentKeyIndex]?

/-- Observation helper: the stored compression count at array position `n`. -/
def countAt (km : KeyManager) (n : Nat) : Option Nat :=
  (km.keyStats[n]?).bind KeyStat.compressionCount

/-- Observation helper: the disabled flag at array position `n`. -/
def disabledAt (km : KeyManager) (n : Nat) : Option Bool :=
  (km.keyStats[n]?).map KeyStat.disabled

/-- Observation helper: the monthly limit at array position `n`. -/
def limitAt (km : KeyManager) (n : Nat) : Option Nat :=
  (km.keyStats[n]?).map KeyStat.monthlyLimit

/-! Pure error classification, from `src/utils/error.mjs`.  A JS `Error`
relevant to classification carries an optional HTTP `status` (absent for
network-level failures; when present it is a non-zero HTTP code, so JS
truthiness of `error.status` coincides with presence), an optional
`cause.code` string, and a message. -/

/-- A JS error object as seen by the error utilities. -/
structure JsError where
  status : Option Nat
  causeCode : Option String
  message : String
deriving Repr, DecidableEq

/-- `shouldRetryOnNetworkError`: connection refused or timed out. -/
def shouldRetryOnNetworkError (e : JsError) : Bool :=
  e.causeCode = some "ECONNREFUSED" || e.causeCode = some "ETIMEDOUT"

/-- `isUnauthorizedError`: status 401. -/
def isUnauthorizedError (e : JsError) : Bool :=
  e.status = some 401

/-- `isRateLimitError`: status 429. -/
def isRateLimitError (e : JsError) : Bool :=
  e.status = some 429

/-- `isClientError`: status 400 or 415. -/
def isClientError (e : JsError) : Bool :=
  e.status = some 400 || e.status = some 415

/-- `isServerError`: status at least 500 (`undefined >= 500` is `false` in
JS, hence `none` maps to `false`). -/
def isServerError (e : JsError) : Bool :=
  match e.status with
  | none => false
  | some s => 500 ≤ s

/-- `shouldMarkKeyError`: unauthorized or rate limited. -/
def shouldMarkKeyError (e : JsError) : Bool :=
  isUnauthorizedError e || isRateLimitError e

/-- `calculateRetryDelay`: `1000 * (attempt + 1)` milliseconds. -/
def calculateRetryDelay (attempt : Nat) : Nat :=
  1000 * (attempt + 1)

/-! The retry loop of `TinyPNGCompressor.compress` (src/tinypng.mjs),
together with `handleServiceError` / `handleNetworkError`
(src/workflows/compression.mjs).

One attempt of the loop body (select a key, upload+shrink, download,
finalize) is abstracted by an environment `env : Nat → Nat → Sum JsError
Nat` giving, for an attempt number and the selected key's index, either the
JS error the attempt raises or the length of the buffer it returns.
Response-header quota updates (`updateQuota`) along a successful attempt are
not replayed into the pool state; no modelled scenario observes the pool
after a success, and on the modelled failing paths the first request already
fails, before any quota update.  Event emission (`this.emit`) has no effect
on control flow and is not modelled; the delays that `_delay` is awaited on
are recorded in the trace. -/

/-- How `compress` terminates: a returned buffer, an error escaping the
loop (a JS `throw` that nothing inside `compress` catches), or the
`压缩失败` wrapper error built after the `for` loop exits (line 139 of
src/tinypng.mjs), carrying the last underlying error. -/
inductive CompressResult where
  | success (keyIndex : Nat) (bufLen : Nat)
  | thrown (e : JsError)
  | exhausted (lastError : Option JsError)
deriving Repr, DecidableEq

/-- Everything observable about one `compress` call: its outcome, the pool
state it leaves behind, the key index chosen on each attempt (in order),
and the delays awaited (in milliseconds, in order). -/
structure CompressTrace where
  result : CompressResult
  finalPool : KeyManager
  selections : List Nat
  delays : List Nat
deriving Repr, DecidableEq

/-- The plain `Error` thrown by `selectBestKey`, as seen by the catch block
of `compress`: no `status`, no `cause`. -/
def selectErrorToJs : SelectError → JsError
  | .poolExhausted => { status := none, causeCode := none, message := "所有 API Keys 都已被禁用" }
  | .quotaExhausted => { status := none, causeCode := none, message := "所有 API Keys 都已达到月度限制" }

/-- The `for (attempt = 0; attempt < maxRetries; attempt++)` loop of
`compress`, structurally recursive on the remaining iteration count
`fuel = maxRetries - attempt`.  Faithful control flow of the source:

* `selectBestKey` throwing is caught with `keyStat` undefined, handed to
  `handleNetworkError`, whose retry test fails (no `cause.code`), so the
  error is rethrown and escapes the loop;
* an error with a (truthy) `status` goes to `handleServiceError`, which
  disables the key on 401/429, awaits a backoff delay on a 5xx when
  `attempt < maxRetries - 1`, and then rethrows — and because that throw
  happens inside the catch block of `compress`, it escapes the `for` loop
  and `compress` rejects with the raw error;
* an error without a status goes to `handleNetworkError`: a retryable cause
  with `attempt < maxRetries - 1` awaits a delay and continues the loop,
  anything else is rethrown and escapes. -/
def compressLoop (env : Nat → Nat → Sum JsError Nat) (maxRetries : Nat) :
    Nat → Nat → KeyManager → Option JsError → List Nat → List Nat → CompressTrace
  | 0, _, km, lastError, sels, dels =>
    { result := .exhausted lastError
      finalPool := km
      selections := sels.reverse
      delays := dels.reverse }
  | fuel + 1, attempt, km, _lastError, sels, dels =>
    match selectBestKey km with
    | .error se =>
      { result := .thrown (selectErrorToJs se)
        finalPool := km
        selections := sels.reverse
        delays := dels.reverse }
    | .ok (keyStat, km1) =>
      let sels := keyStat.index :: sels
      match env attempt keyStat.index with
      | .inr bufLen =>
        { result := .success keyStat.index bufLen
          finalPool := km1
          selections := sels.reverse
          delays := dels.reverse }
      | .inl e =>
        match e.status with
        | some _ =>
          let km2 :=
            if shouldMarkKeyError e then
              match markKeyError km1 keyStat.index e.message with
              | .ok km' => km'
              | .error _ => km1
            else km1
          let dels :=
            if isServerError e && decide (attempt < maxRetries - 1) then
              calculateRetryDelay attempt :: dels
            else dels
          { result := .thrown e
            finalPool := km2
            selections := sels.reverse
            delays := dels.reverse }
        | none =>
          if shouldRetryOnNetworkError e && decide (attempt < maxRetries - 1) then
            compressLoop env maxRetries fuel (attempt + 1) km1 (some e) sels
              (calculateRetryDelay attempt :: dels)
          else
            { result := .thrown e
              finalPool := km1
              selections := sels.reverse
              delays := dels.reverse }

/-- `TinyPNGCompressor.compress` after `prepareSource` has succeeded:
`maxRetries = keyManager.getTotalKeys()` and the loop starts at attempt 0
with no recorded error. -/
def compress (env : Nat → Nat → Sum JsError Nat) (km : KeyManager) : CompressTrace :=
  compressLoop env (getTotalKeys km) (getTotalKeys km) 0 km none [] []

/-! The success path of `finalizeResult` (src/workflows/compression.mjs)
and `createSuccessEvent` (src/utils/event.mjs), plus the standalone
`calculateSavedBytes` utility (src/utils/compression.mjs). -/

/-- Prepared source data returned by `prepareSource`; the byte buffer is
represented by its byte list. -/
structure SourceData where
  isSourceUrl : Bool
  filename : Option String
  type : String
  size : Option Nat
  originalSize : Option Nat
  buffer : Option (List Nat)
deriving Repr, DecidableEq

/-- The `success` event payload built by `createSuccessEvent` (the
`compressionRatio` display string, a floating-point `toFixed(2)` value, is
not modelled). -/
structure SuccessEvent where
  keyIndex : Nat
  originalSize : Nat
  compressedSize : Nat
  savedBytes : Int
  filename : Option String
  compressionCount : Option Nat
  remaining : Option Int
deriving Repr, DecidableEq

/-- `createSuccessEvent`: note `savedBytes` is the bare difference
`originalSize - compressedSize`, with no clamping. -/
def createSuccessEvent (keyIndex : Nat) (originalSize : Nat) (compressedSize : Nat)
    (filename : Option String) (compressionCount : Option Nat) (monthlyLimit : Nat) :
    SuccessEvent :=
  { keyIndex := keyIndex
    originalSize := originalSize
    compressedSize := compressedSize
    savedBytes := (originalSize : Int) - compressedSize
    filename := filename
    compressionCount := compressionCount
    remaining := compressionCount.map fun c => (monthlyLimit : Int) - c }

/-- `finalizeResult`: the downloaded bytes become the returned buffer;
`finalOriginalSize = sourceData.originalSize || compressedBuffer.length`
(JS `||`, so a `null` or `0` original size falls back to the compressed
length); the emitted success event and the returned buffer. -/
def finalizeResult (downloadBody : List Nat) (sourceData : SourceData)
    (finalKeyStat : KeyStat) : SuccessEvent × List Nat :=
  let compressedLen := downloadBody.length
  let finalOriginalSize :=
    match sourceData.originalSize with
    | none => compressedLen
    | some n => if n = 0 then compressedLen else n
  (createSuccessEvent finalKeyStat.index finalOriginalSize compressedLen
      sourceData.filename finalKeyStat.compressionCount finalKeyStat.monthlyLimit,
    downloadBody)

/-- `calculateSavedBytes` from src/utils/compression.mjs:
`Math.max(0, originalSize - compressedSize)`. -/
def calculateSavedBytes (originalSize compressedSize : Int) : Int :=
  max 0 (originalSize - compressedSize)

/-! Sequences of pool operations, for the persistence/monotonicity claims.
In every `KeyManager` method the `throw` happens before any mutation, so a
failing call leaves the state unchanged; `applyOp` reflects that by
returning the input state on error. -/

/-- One externally triggerable pool operation. -/
inductive PoolOp where
  | select
  | update (i : Int) (c : Option Nat) (now : Nat)
  | markErr (i : Int) (msg : String)
deriving Repr, DecidableEq

/-- Run one operation, keeping the state unchanged when the JS method
throws (all mutations in the source happen after validation). -/
def applyOp (km : KeyManager) : PoolOp → KeyManager
  | .select =>
    match selectBestKey km with
    | .ok (_, km') => km'
    | .error _ => km
  | .update i c now =>
    match updateStats km i c now with
    | .ok km' => km'
    | .error _ => km
  | .markErr i msg =>
    match markKeyError km i msg with
    | .ok km' => km'
    | .error _ => km

/-- Run a sequence of pool operations. -/
def applyOps (km : KeyManager) (ops : List PoolOp) : KeyManager :=
  ops.foldl applyOp km

/-! Concrete pools and environments used by the scenario parts of the
claims and by the witnesses. -/

/-- A two-key pool, fresh. -/
def pool2 : KeyManager :=
  initKeyManager ["key-a", "key-b"] 500

/-- A three-key pool, fresh. -/
def pool3 : KeyManager :=
  initKeyManager ["key-a", "key-b", "key-c"] 500

/-- Scenario B pool: usage 450 / 100 / 300 against a limit of 500. -/
def poolB : KeyManager :=
  applyOps pool3 [.update 0 (some 450) 1, .update 1 (some 100) 2, .update 2 (some 300) 3]

/-- Scenario C pool: every key marked failed. -/
def poolAllFailed : KeyManager :=
  applyOps pool3 [.markErr 0 "auth", .markErr 1 "auth", .markErr 2 "auth"]

/-- The value `selectBestKey` returns on `poolB` (its `.ok` payload). -/
def selB : KeyStat × KeyManager :=
  match selectBestKey poolB with
  | .ok p => p
  | .error _ => (mkStat "" 0 0, poolB)

/-- A 401 API error, as produced by the service layer. -/
def err401 : JsError :=
  { status := some 401, causeCode := none, message := "Credentials are invalid" }

/-- A 500 API error. -/
def err500 : JsError :=
  { status := some 500, causeCode := none, message := "Internal server error" }

/-- A connection-refused network error (no HTTP status). -/
def errConn : JsError :=
  { status := none, causeCode := some "ECONNREFUSED", message := "fetch failed" }

/-- Environment raising a 401 on attempt 0 and succeeding afterwards, so a
retry — were one to happen — would succeed. -/
def envAuthFirst : Nat → Nat → Sum JsError Nat := fun attempt _ =>
  if attempt = 0 then .inl err401 else .inr 10

/-- Environment raising a 500 on attempt 0 and succeeding afterwards. -/
def envServerFirst : Nat → Nat → Sum JsError Nat := fun attempt _ =>
  if attempt = 0 then .inl err500 else .inr 10

/-- Environment raising a connection error on attempt 0 and succeeding
afterwards. -/
def envConnFirst : Nat → Nat → Sum JsError Nat := fun attempt _ =>
  if attempt = 0 then .inl errConn else .inr 10

/-! Helper lemmas about the selection order and `pickBest`. -/

/-- Remaining quota read in the order `selectBestKey` compares by:
`none` (unknown count) is the top element. -/
def toTop : Option Int → WithTop Int
  | none => ⊤
  | some x => (x : WithTop Int)

/-- A pool whose first key has just reported a count equal to the limit. -/
def poolC4 : KeyManager :=
  applyOps pool3 [.update 0 (some 500) 7]

/-- A single-key pool with a known count of 100. -/
def poolC5a : KeyManager :=
  applyOps (initKeyManager ["key-a"] 500) [.update 0 (some 100) 1]

/-- `poolC5a` after the server reports the smaller count 50. -/
def poolC5b : KeyManager :=
  applyOps poolC5a [.update 0 (some 50) 2]

/-- `poolC5a` after the server reports the larger count 150. -/
def poolC5c : KeyManager :=
  applyOps poolC5a [.update 0 (some 150) 2]

/-- A pool whose first key was marked failed. -/
def poolC6 : KeyManager :=
  applyOps pool3 [.markErr 0 "auth failed"]

/-- A subsequent mixed operation sequence. -/
def opsC6 : List PoolOp :=
  [.select, .update 0 (some 10) 5, .markErr 1 "rate limited"]

/-- Prepared source data for a 10-byte local file. -/
def srcC8 : SourceData :=
  { isSourceUrl := false
    filename := some "test.png"
    type := "file"
    size := some 10
    originalSize := some 10
    buffer := some (List.replicate 10 0) }

/-- A key statistics object as it looks at finalization time. -/
def statC8 : KeyStat :=
  { key := "key-a"
    index := 0
    compressionCount := some 57
    monthlyLimit := 500
    lastUpdated := some 3
    lastError := none
    disabled := false }

/-- A 7-byte download body. -/
def bufC8 : List Nat :=
  List.replicate 7 0

theorem quotaGt_iff (x y : Option Int) : quotaGt x y = true ↔ toTop y < toTop x := by
  cases x <;> cases y <;>
    simp [quotaGt, toTop, WithTop.coe_lt_top, WithTop.coe_lt_coe, lt_irrefl]

theorem quotaGt_false_iff (x y : Option Int) :
    quotaGt x y = false ↔ toTop x ≤ toTop y := by
  rw [← Bool.not_eq_true, quotaGt_iff, not_lt]

theorem pickBest_cons (a b : KeyStat) (l : List KeyStat) :
    pickBest a (b :: l) =
      pickBest (if quotaGt (remainingQuota b) (remainingQuota a) then b else a) l := rfl

theorem pickBest_mem (a : KeyStat) (l : List KeyStat) : pickBest a l ∈ a :: l := by
  induction l generalizing a with
  | nil => simp [pickBest]
  | cons b l ih =>
    rw [pickBest_cons]
    rcases List.mem_cons.mp (ih (if quotaGt (remainingQuota b) (remainingQuota a) then b else a))
      with h | h
    · rw [h]
      split <;> simp
    · simp [h]

theorem le_pickBest :
    ∀ (l : List KeyStat) (a s : KeyStat), s ∈ a :: l →
      toTop (remainingQuota s) ≤ toTop (remainingQuota (pickBest a l)) := by
  intro l
  induction l with
  | nil =>
    intro a s hs
    rw [List.mem_singleton.mp hs]
    simp [pickBest]
  | cons b l ih =>
    intro a s hs
    rw [pickBest_cons]
    rcases List.mem_cons.mp hs with h | h
    · subst h
      by_cases hq : quotaGt (remainingQuota b) (remainingQuota s)
      · rw [if_pos hq]
        exact le_of_lt (lt_of_lt_of_le ((quotaGt_iff _ _).mp hq)
          (ih b b (List.mem_cons_self _ _)))
      · rw [if_neg hq]
        exact ih s s (List.mem_cons_self _ _)
    rcases List.mem_cons.mp h with h | h
    · subst h
      by_cases hq : quotaGt (remainingQuota s) (remainingQuota a)
      · rw [if_pos hq]
        exact ih s s (List.mem_cons_self _ _)
      · rw [if_neg hq]
        exact le_trans ((quotaGt_false_iff _ _).mp (by simpa using hq))
          (ih a a (List.mem_cons_self _ _))
    · by_cases hq : quotaGt (remainingQuota b) (remainingQuota a)
      · rw [if_pos hq]
        exact ih b s (List.mem_cons_of_mem _ h)
      · rw [if_neg hq]
        exact ih a s (List.mem_cons_of_mem _ h)

/-! Inversion lemmas for the pool operations. -/

theorem selectBestKey_inv {km : KeyManager} {s : KeyStat} {km' : KeyManager}
    (h : selectBestKey km = .ok (s, km')) :
    ∃ a rest,
      (km.keyStats.filter fun t => !t.disabled).filter viable = a :: rest ∧
      s = pickBest a rest ∧
      km' = { km with currentKeyIndex := (pickBest a rest).index } := by
  unfold selectBestKey at h
  split at h
  · exact absurd h (by simp)
  · split at h
    · exact absurd h (by simp)
    · next a rest heq =>
      obtain ⟨h1, h2⟩ := Prod.mk.injEq .. ▸ Except.ok.inj h
      exact ⟨a, rest, heq, h1.symm, h2.symm⟩

theorem getStat_eq_some {km : KeyManager} {i : Int} {stat : KeyStat}
    (h : getStat km i = some stat) :
    km.keyStats[i.toNat]? = some stat := by
  unfold getStat at h
  split at h
  · exact h
  · exact absurd h (by simp)

theorem getStat_lt_length {km : KeyManager} {i : Int} {stat : KeyStat}
    (h : getStat km i = some stat) :
    i.toNat < km.keyStats.length := by
  obtain ⟨hlt, _⟩ := List.getElem?_eq_some.mp (getStat_eq_some h)
  exact hlt

theorem updateStats_some_inv {km : KeyManager} {i : Int} {c : Nat} {now : Nat}
    {km' : KeyManager} (h : updateStats km i (some c) now = .ok km') :
    ∃ stat, getStat km i = some stat ∧
      km' = setStat km i.toNat
        { stat with
            compressionCount := some c
            lastUpdated := some now
            disabled := stat.disabled || decide (stat.monthlyLimit ≤ c) } := by
  unfold updateStats at h
  split at h
  · exact absurd h (by simp)
  · next stat heq =>
    exact ⟨stat, heq, (Except.ok.inj h).symm⟩

theorem updateStats_none_ok {km : KeyManager} {i : Int} {now : Nat} {km' : KeyManager}
    (h : updateStats km i none now = .ok km') : km' = km := by
  unfold updateStats at h
  split at h
  · exact absurd h (by simp)
  · exact (Except.ok.inj h).symm

theorem markKeyError_inv {km : KeyManager} {i : Int} {msg : String} {km' : KeyManager}
    (h : markKeyError km i msg = .ok km') :
    ∃ stat, getStat km i = some stat ∧
      km' = setStat km i.toNat { stat with lastError := some msg, disabled := true } := by
  unfold markKeyError at h
  split at h
  · exact absurd h (by simp)
  · next stat heq =>
    exact ⟨stat, heq, (Except.ok.inj h).symm⟩

/-! Observation lemmas for `setStat`. -/

theorem keyStats_setStat_self {km : KeyManager} {n : Nat} (s : KeyStat)
    (h : n < km.keyStats.length) :
    (setStat km n s).keyStats[n]? = some s :=
  List.getElem?_set_self h

theorem keyStats_setStat_ne {km : KeyManager} {n m : Nat} (s : KeyStat) (h : n ≠ m) :
    (setStat km n s).keyStats[m]? = km.keyStats[m]? :=
  List.getElem?_set_ne h

theorem availEmpty_iff (km : KeyManager) :
    (km.keyStats.filter fun s => !s.disabled).isEmpty = true ↔
      km.keyStats.all KeyStat.disabled = true := by
  simp [List.isEmpty_iff, List.filter_eq_nil_iff, List.all_eq_true]

theorem viableEmpty_iff (km : KeyManager) :
    (km.keyStats.filter fun s => !s.disabled).filter viable = [] ↔
      (km.keyStats.all fun s => s.disabled || !viable s) = true := by
  simp only [List.filter_eq_nil_iff, List.all_eq_true, List.mem_filter]
  constructor
  · intro h a ha
    by_cases hd : a.disabled
    · simp [hd]
    · have := h a ⟨ha, by simp [hd]⟩
      simp only [hd, Bool.false_or]
      simpa using this
  · rintro h a ⟨ha, hnd⟩
    have := h a ha
    rw [Bool.not_eq_true'] at hnd
    simp only [hnd, Bool.false_or] at this
    simpa using this

/-- Claim C2: `selectBestKey` returns a non-disabled, viable credential
whose remaining quota (with unknown counts ranked as infinite) is maximal
among the non-disabled viable credentials; an unknown-count candidate, when
one exists, therefore wins over every known-count one; and on the
scenario-B pool (counts 450/100/300, limit 500) the selected index is 1. -/
theorem selectBestKey_least_used (km : KeyManager) (s : KeyStat) (km' : KeyManager)
    (h : selectBestKey km = .ok (s, km')) :
    s ∈ km.keyStats ∧ s.disabled = false ∧ viable s = true ∧
    (∀ t ∈ km.keyStats, t.disabled = false → viable t = true →
      toTop (remainingQuota t) ≤ toTop (remainingQuota s)) ∧
    ((∃ t ∈ km.keyStats, t.disabled = false ∧ t.compressionCount = none) →
      s.compressionCount = none) ∧
    (selectBestKey poolB).map (fun p => p.fst.index) = Except.ok 1 := by
  obtain ⟨a, rest, heq, hs, -⟩ := selectBestKey_inv h
  subst hs
  have hmem : pickBest a rest ∈
      (km.keyStats.filter fun t => !t.disabled).filter viable := by
    rw [heq]
    exact pickBest_mem a rest
  have hviable : viable (pickBest a rest) = true := List.of_mem_filter hmem
  have hmem2 : pickBest a rest ∈ km.keyStats.filter fun t => !t.disabled :=
    List.mem_of_mem_filter hmem
  have hnd : (pickBest a rest).disabled = false := by
    simpa using List.of_mem_filter hmem2
  have hmax : ∀ t ∈ km.keyStats, t.disabled = false → viable t = true →
      toTop (remainingQuota t) ≤ toTop (remainingQuota (pickBest a rest)) := by
    intro t ht htd htv
    have : t ∈ (km.keyStats.filter fun u => !u.disabled).filter viable :=
      List.mem_filter.mpr ⟨List.mem_filter.mpr ⟨ht, by simp [htd]⟩, htv⟩
    rw [heq] at this
    exact le_pickBest rest a t this
  refine ⟨List.mem_of_mem_filter hmem2, hnd, hviable, hmax, ?_, rfl⟩
  rintro ⟨t, ht, htd, htc⟩
  have hle := hmax t ht htd (by simp [viable, htc])
  rw [remainingQuota, htc] at hle
  have htop : toTop (remainingQuota (pickBest a rest)) = ⊤ :=
    top_le_iff.mp (le_of_eq_of_le (by rfl) hle)
  rcases hc : (pickBest a rest).compressionCount with _ | c
  · rfl
  · rw [remainingQuota, hc] at htop
    exact absurd htop (by simp [toTop])

/-- Witness for C2: the selection on the scenario-B pool satisfies the
guarantees. -/
theorem selectBestKey_least_used_witness :
    selB.fst ∈ poolB.keyStats ∧ selB.fst.disabled = false ∧ viable selB.fst = true := by
  have h := selectBestKey_least_used poolB selB.fst selB.snd rfl
  exact ⟨h.1, h.2.1, h.2.2.1⟩

/-- Claim C3: `selectBestKey` fails with the pool-exhausted error exactly
when every credential is disabled, and with the distinct quota-exhausted
error exactly when a non-disabled credential remains but every non-disabled
credential has a known count at or above its limit; after marking all three
credentials of a pool failed, selection reports pool exhaustion. -/
theorem selectBestKey_exhaustion (km : KeyManager) :
    (selectBestKey km = .error .poolExhausted ↔
      km.keyStats.all KeyStat.disabled = true) ∧
    (selectBestKey km = .error .quotaExhausted ↔
      ((km.keyStats.any fun s => !s.disabled) = true ∧
        (km.keyStats.all fun s => s.disabled || !viable s) = true)) ∧
    selectBestKey poolAllFailed = .error .poolExhausted := by
  refine ⟨?_, ?_, rfl⟩
  · by_cases hA : (km.keyStats.filter fun s => !s.disabled).isEmpty = true
    · have hsel : selectBestKey km = .error .poolExhausted := by
        simp [selectBestKey, hA]
      simp [hsel, (availEmpty_iff km).mp hA]
    · have hnot : ¬ km.keyStats.all KeyStat.disabled = true :=
        fun hall => hA ((availEmpty_iff km).mpr hall)
      rcases hV : (km.keyStats.filter fun s => !s.disabled).filter viable with _ | ⟨a, rest⟩
      · have hsel : selectBestKey km = .error .quotaExhausted := by
          simp [selectBestKey, hA, hV]
        simp [hsel, hnot]
      · have hsel : selectBestKey km = .ok (pickBest a rest,
            { km with currentKeyIndex := (pickBest a rest).index }) := by
          simp [selectBestKey, hA, hV]
        simp [hsel, hnot]
  · by_cases hA : (km.keyStats.filter fun s => !s.disabled).isEmpty = true
    · have hsel : selectBestKey km = .error .poolExhausted := by
        simp [selectBestKey, hA]
      have hall := (availEmpty_iff km).mp hA
      rw [List.all_eq_true] at hall
      simp only [hsel]
      constructor
      · intro hcontr
        exact absurd hcontr (by simp)
      · rintro ⟨hany, -⟩
        obtain ⟨t, ht, htnd⟩ := List.any_eq_true.mp hany
        exact absurd (hall t ht) (by simpa using htnd)
    · rcases hV : (km.keyStats.filter fun s => !s.disabled).filter viable with _ | ⟨a, rest⟩
      · have hsel : selectBestKey km = .error .quotaExhausted := by
          simp [selectBestKey, hA, hV]
        have hany : (km.keyStats.any fun s => !s.disabled) = true := by
          rcases hne : km.keyStats.filter (fun s => !s.disabled) with _ | ⟨b, l⟩
          · exact absurd (by simp [List.isEmpty_iff, hne]) hA
          · have hb : b ∈ km.keyStats.filter fun s => !s.disabled := by
              rw [hne]; exact List.mem_cons_self _ _
            exact List.any_eq_true.mpr
              ⟨b, List.mem_of_mem_filter hb, (List.mem_filter.mp hb).2⟩
        simp [hsel, hany, (viableEmpty_iff km).mp hV]
      · have hsel : selectBestKey km = .ok (pickBest a rest,
            { km with currentKeyIndex := (pickBest a rest).index }) := by
          simp [selectBestKey, hA, hV]
        have hnotall : ¬ (km.keyStats.all fun s => s.disabled || !viable s) = true := by
          intro hall
          rw [← viableEmpty_iff km] at hall
          simp [hV] at hall
        simp [hsel, hnotall]

/-- Claim C9: a successful `selectBestKey` changes only the
current-selection pointer; the `keyStats` array — and with it every key
string, count, limit, disabled flag, error and timestamp — is untouched. -/
theorem selectBestKey_only_moves_pointer (km : KeyManager) (s : KeyStat) (km' : KeyManager)
    (h : selectBestKey km = .ok (s, km')) :
    km'.keyStats = km.keyStats ∧ km'.currentKeyIndex = s.index := by
  obtain ⟨a, rest, -, hs, hkm⟩ := selectBestKey_inv h
  subst hs
  rw [hkm]
  exact ⟨rfl, rfl⟩

/-- Witness for C9: the selection on the scenario-B pool leaves the
statistics array unchanged. -/
theorem selectBestKey_only_moves_pointer_witness :
    selB.snd.keyStats = poolB.keyStats ∧ selB.snd.currentKeyIndex = selB.fst.index :=
  selectBestKey_only_moves_pointer poolB selB.fst selB.snd rfl

/-- Claim C4: `updateStats` with a numeric count records exactly that count
and ends up disabled precisely when it already was or the count reached the
limit; a `null` count on a valid index is a complete no-op; an out-of-range
index is rejected with the invalid-index error. -/
theorem updateStats_spec :
    (∀ (km : KeyManager) (i : Int) (c : Nat) (now : Nat) (km' : KeyManager),
      updateStats km i (some c) now = .ok km' →
      countAt km' i.toNat = some c ∧
      (disabledAt km' i.toNat = some true ↔
        disabledAt km i.toNat = some true ∨
          ∃ limit, limitAt km i.toNat = some limit ∧ limit ≤ c)) ∧
    (∀ (km : KeyManager) (i : Int) (now : Nat) (stat : KeyStat),
      getStat km i = some stat → updateStats km i none now = .ok km) ∧
    (∀ (km : KeyManager) (i : Int) (c : Option Nat) (now : Nat),
      getStat km i = none → updateStats km i c now = .error (.invalidIndex i)) := by
  refine ⟨?_, ?_, ?_⟩
  · intro km i c now km' h
    obtain ⟨stat, hstat, hkm'⟩ := updateStats_some_inv h
    have hlt := getStat_lt_length hstat
    have hget := getStat_eq_some hstat
    subst hkm'
    constructor
    · simp [countAt, keyStats_setStat_self _ hlt]
    · simp [disabledAt, limitAt, keyStats_setStat_self _ hlt, hget,
        Bool.or_eq_true, decide_eq_true_eq]
  · intro km i now stat h
    simp [updateStats, h]
  · intro km i c now h
    simp [updateStats, h]

/-- Witness for C4: reporting a count of 500 on the fresh three-key pool
records the count at index 0. -/
theorem updateStats_spec_witness : countAt poolC4 0 = some 500 :=
  (updateStats_spec.1 pool3 0 500 7 poolC4 rfl).1

/-- Counterexample to C5 as stated: `updateStats` overwrites the stored
count with whatever the server reports, so a later call can make a known
count smaller (100 down to 50 here). -/
theorem updateStats_decreases_known_count :
    countAt poolC5a 0 = some 100 ∧
    updateStats poolC5a 0 (some 50) 2 = .ok poolC5b ∧
    countAt poolC5b 0 = some 50 ∧ (50 : Nat) < 100 :=
  ⟨rfl, rfl, rfl, by decide⟩

/-- Claim C5 (amended): `selectBestKey` and `markKeyError` never change any
stored count; `updateStats` is last-writer-wins, so a known count never
decreases provided each report is at least the stored value; a `null`
report changes no count. -/
theorem pool_count_monotone_under_nondecreasing_reports :
    (∀ (km : KeyManager) (s : KeyStat) (km' : KeyManager),
      selectBestKey km = .ok (s, km') → ∀ n, countAt km' n = countAt km n) ∧
    (∀ (km : KeyManager) (i : Int) (msg : String) (km' : KeyManager),
      markKeyError km i msg = .ok km' → ∀ n, countAt km' n = countAt km n) ∧
    (∀ (km : KeyManager) (i : Int) (c : Nat) (now : Nat) (km' : KeyManager) (n : Nat)
      (c0 : Nat), updateStats km i (some c) now = .ok km' → countAt km n = some c0 →
      c0 ≤ c → ∃ c1, countAt km' n = some c1 ∧ c0 ≤ c1) ∧
    (∀ (km : KeyManager) (i : Int) (now : Nat) (km' : KeyManager),
      updateStats km i none now = .ok km' → ∀ n, countAt km' n = countAt km n) := by
  refine ⟨?_, ?_, ?_, ?_⟩
  · intro km s km' h n
    obtain ⟨a, rest, -, -, hkm⟩ := selectBestKey_inv h
    rw [hkm]
    rfl
  · intro km i msg km' h n
    obtain ⟨stat, hstat, hkm'⟩ := markKeyError_inv h
    have hget := getStat_eq_some hstat
    subst hkm'
    by_cases hn : i.toNat = n
    · subst hn
      simp [countAt, keyStats_setStat_self _ (getStat_lt_length hstat), hget]
    · simp [countAt, keyStats_setStat_ne _ hn]
  · intro km i c now km' n c0 h hc0 hle
    obtain ⟨stat, hstat, hkm'⟩ := updateStats_some_inv h
    have hget := getStat_eq_some hstat
    subst hkm'
    by_cases hn : i.toNat = n
    · subst hn
      refine ⟨c, ?_, hle⟩
      simp [countAt, keyStats_setStat_self _ (getStat_lt_length hstat)]
    · refine ⟨c0, ?_, le_refl c0⟩
      rw [countAt, keyStats_setStat_ne _ hn]
      exact hc0
  · intro km i now km' h n
    rw [updateStats_none_ok h]

/-- Witness for C5 (amended): reporting 150 after a stored 100 leaves the
count at a value no smaller than 100. -/
theorem pool_count_monotone_witness :
    ∃ c1, countAt poolC5c 0 = some c1 ∧ 100 ≤ c1 :=
  pool_count_monotone_under_nondecreasing_reports.2.2.1 poolC5a 0 150 2 poolC5c 0 100
    rfl rfl (by decide)

theorem applyOp_keeps_disabled {km : KeyManager} {n : Nat} (op : PoolOp)
    (h : disabledAt km n = some true) :
    disabledAt (applyOp km op) n = some true := by
  cases op with
  | select =>
    rcases hsel : selectBestKey km with e | p
    · simpa [applyOp, hsel] using h
    · obtain ⟨a, rest, -, -, hkm⟩ := selectBestKey_inv hsel
      simp only [applyOp, hsel]
      rw [hkm]
      exact h
  | update i c now =>
    rcases hupd : updateStats km i c now with e | km'
    · simpa [applyOp, hupd] using h
    · simp only [applyOp, hupd]
      cases c with
      | none =>
        rw [updateStats_none_ok hupd]
        exact h
      | some c =>
        obtain ⟨stat, hstat, hkm'⟩ := updateStats_some_inv hupd
        have hget := getStat_eq_some hstat
        subst hkm'
        by_cases hn : i.toNat = n
        · subst hn
          have hd : stat.disabled = true := by
            rw [disabledAt, hget] at h
            simpa using h
          simp [disabledAt, keyStats_setStat_self _ (getStat_lt_length hstat), hd]
        · rw [disabledAt, keyStats_setStat_ne _ hn]
          exact h
  | markErr i msg =>
    rcases hmk : markKeyError km i msg with e | km'
    · simpa [applyOp, hmk] using h
    · simp only [applyOp, hmk]
      obtain ⟨stat, hstat, hkm'⟩ := markKeyError_inv hmk
      subst hkm'
      by_cases hn : i.toNat = n
      · subst hn
        simp [disabledAt, keyStats_setStat_self _ (getStat_lt_length hstat)]
      · rw [disabledAt, keyStats_setStat_ne _ hn]
        exact h

theorem applyOps_keeps_disabled {km : KeyManager} {n : Nat} (ops : List PoolOp)
    (h : disabledAt km n = some true) :
    disabledAt (applyOps km ops) n = some true := by
  induction ops generalizing km with
  | nil => exact h
  | cons op ops ih => exact ih (applyOp_keeps_disabled op h)

/-- Claim C6: a disabled flag, however it became true (a count at the limit
through `updateStats`, or `markKeyError`), stays true across every
subsequent sequence of select/update/mark operations, and the `getStats`
view reports it as true. -/
theorem disabled_persists_until_reset (km : KeyManager) (n : Nat) (ops : List PoolOp)
    (h : disabledAt km n = some true) :
    disabledAt (applyOps km ops) n = some true ∧
    ((getStats (applyOps km ops))[n]?).map KeyStatView.disabled = some true ∧
    (∀ (km₀ : KeyManager) (i : Int) (msg : String) (km₁ : KeyManager),
      markKeyError km₀ i msg = .ok km₁ → disabledAt km₁ i.toNat = some true) ∧
    (∀ (km₀ : KeyManager) (i : Int) (c : Nat) (now : Nat) (km₁ : KeyManager) (limit : Nat),
      updateStats km₀ i (some c) now = .ok km₁ → limitAt km₀ i.toNat = some limit →
      limit ≤ c → disabledAt km₁ i.toNat = some true) := by
  have hrun := applyOps_keeps_disabled ops h
  refine ⟨hrun, ?_, ?_, ?_⟩
  · obtain ⟨s, hs, hsd⟩ := Option.map_eq_some'.mp hrun
    simp [getStats, List.getElem?_map, hs, hsd]
  · intro km₀ i msg km₁ h₁
    obtain ⟨stat, hstat, hkm₁⟩ := markKeyError_inv h₁
    subst hkm₁
    simp [disabledAt, keyStats_setStat_self _ (getStat_lt_length hstat)]
  · intro km₀ i c now km₁ limit h₁ hlim hle
    obtain ⟨stat, hstat, hkm₁⟩ := updateStats_some_inv h₁
    have hget := getStat_eq_some hstat
    have hstatlim : stat.monthlyLimit = limit := by
      rw [limitAt, hget] at hlim
      simpa using hlim
    subst hkm₁
    simp [disabledAt, keyStats_setStat_self _ (getStat_lt_length hstat), hstatlim, hle]

/-- Witness for C6: after marking key 0 failed, a select / update / mark
sequence leaves it disabled, also in the reported view. -/
theorem disabled_persists_until_reset_witness :
    disabledAt (applyOps poolC6 opsC6) 0 = some true ∧
    ((getStats (applyOps poolC6 opsC6))[0]?).map KeyStatView.disabled = some true := by
  have h := disabled_persists_until_reset poolC6 0 opsC6 rfl
  exact ⟨h.1, h.2.1⟩

/-- Claim C7: `reset` moves the pointer back to 0, clears every key's
count, disabled flag, error and timestamp, and is idempotent. -/
theorem reset_spec (km : KeyManager) :
    (reset km).currentKeyIndex = 0 ∧
    ((reset km).keyStats.all fun s =>
      s.compressionCount.isNone && !s.disabled && s.lastError.isNone &&
        s.lastUpdated.isNone) = true ∧
    reset (reset km) = reset km := by
  refine ⟨rfl, ?_, ?_⟩
  · rw [List.all_eq_true]
    intro s hs
    simp only [reset, List.mem_map] at hs
    obtain ⟨t, -, rfl⟩ := hs
    rfl
  · unfold reset
    simp only [List.map_map]
    rfl

/-- Counterexample to C8 as stated: the success event built by
`finalizeResult` does not clamp `savedBytes`; with a known original size of
10 bytes and a 12-byte download, the reported `savedBytes` is -2, while
the (unused in this path) `calculateSavedBytes` utility would clamp to 0. -/
theorem success_savedBytes_unclamped_cex :
    (finalizeResult (List.replicate 12 0) srcC8 statC8).fst.compressedSize = 12 ∧
    (finalizeResult (List.replicate 12 0) srcC8 statC8).fst.savedBytes = -2 ∧
    (finalizeResult (List.replicate 12 0) srcC8 statC8).fst.savedBytes < 0 ∧
    calculateSavedBytes 10 12 = 0 :=
  ⟨rfl, rfl, by decide, rfl⟩

/-- Claim C8 (amended): the success event reports `compressedSize` equal to
the returned buffer's length and, for a known non-zero original size,
`savedBytes = originalSize - compressedSize` as a signed, unclamped value;
the clamping at 0 lives only in the `calculateSavedBytes` utility, which
the success path does not call. -/
theorem finalizeResult_sizes (buf : List Nat) (sd : SourceData) (stat : KeyStat) (n : Nat)
    (h : sd.originalSize = some n) (hn : n ≠ 0) :
    (finalizeResult buf sd stat).snd = buf ∧
    (finalizeResult buf sd stat).fst.compressedSize = buf.length ∧
    (finalizeResult buf sd stat).fst.savedBytes = (n : Int) - buf.length ∧
    0 ≤ calculateSavedBytes n buf.length := by
  refine ⟨rfl, ?_, ?_, le_max_left 0 _⟩
  · simp [finalizeResult, createSuccessEvent]
  · simp [finalizeResult, createSuccessEvent, h, hn]

/-- Witness for C8 (amended): a 7-byte result from a 10-byte original
reports sizes 7 and 3. -/
theorem finalizeResult_sizes_witness :
    (finalizeResult bufC8 srcC8 statC8).snd = bufC8 ∧
    (finalizeResult bufC8 srcC8 statC8).fst.compressedSize = bufC8.length ∧
    (finalizeResult bufC8 srcC8 statC8).fst.savedBytes = ((10 : Nat) : Int) - bufC8.length ∧
    0 ≤ calculateSavedBytes (10 : Nat) bufC8.length :=
  finalizeResult_sizes bufC8 srcC8 statC8 10 rfl (by decide)

/-- Claim C10: an invalid index makes `isKeyAvailable` return `false`
without raising, while `updateStats`, `markKeyError` and `getKeyString` all
throw the invalid-index error on the same index. -/
theorem invalid_index_behavior (km : KeyManager) (i : Int) (c : Option Nat) (now : Nat)
    (msg : String) (h : getStat km i = none) :
    isKeyAvailable km i = false ∧
    updateStats km i c now = .error (.invalidIndex i) ∧
    markKeyError km i msg = .error (.invalidIndex i) ∧
    getKeyString km i = .error (.invalidIndex i) := by
  refine ⟨?_, ?_, ?_, ?_⟩ <;>
    simp [isKeyAvailable, updateStats, markKeyError, getKeyString, h]

/-- Witness for C10: index 5 on the three-key pool. -/
theorem invalid_index_behavior_witness :
    isKeyAvailable pool3 5 = false ∧
    updateStats pool3 5 (some 10) 4 = .error (.invalidIndex 5) ∧
    markKeyError pool3 5 "boom" = .error (.invalidIndex 5) ∧
    getKeyString pool3 5 = .error (.invalidIndex 5) :=
  invalid_index_behavior pool3 5 (some 10) 4 "boom" rfl

/-- Claim C1, evaluated at its failing inputs: contrary to the claim, a 401
on attempt 0 of a two-key pool disables key 0 but then escapes the loop —
`compress` rejects with the raw 401 error after a single selection, never
re-selecting key 1 (the environment would have let attempt 1 succeed), and
the terminal wrapper error is never built; a 500 likewise waits one backoff
delay and then escapes after a single selection; only a retryable network
error re-enters the loop. -/
theorem compress_service_error_escapes_loop :
    (compress envAuthFirst pool2).result = .thrown err401 ∧
    (compress envAuthFirst pool2).selections = [0] ∧
    (compress envAuthFirst pool2).delays = [] ∧
    (getStats (compress envAuthFirst pool2).finalPool).map KeyStatView.disabled =
      [true, false] ∧
    (compress envServerFirst pool2).result = .thrown err500 ∧
    (compress envServerFirst pool2).selections = [0] ∧
    (compress envServerFirst pool2).delays = [1000] ∧
    (compress envConnFirst pool2).result = .success 0 10 ∧
    (compress envConnFirst pool2).selections = [0, 0] ∧
    (compress envConnFirst pool2).delays = [1000] :=
  ⟨rfl, rfl, rfl, rfl, rfl, rfl, rfl, rfl, rfl, rfl⟩

end TinyPNG
